import Mathlib

/-!
Verification development for the ClientServerApp repository: a telemetry
fleet simulator where device clients connect to a central collector over
TCP and exchange newline-delimited compact JSON messages.

The definitions below are shallow embeddings of the C++ source:
* the frame codec shared by `TcpServer::onReadyRead` / `Client::onReadyRead`
  and `TcpServer::sendToClient` / `Client::sendMessage`,
* the device-side state machine of `Client` (client.cpp),
* the collector-side connection registry of `TcpServer` (tcpserver.cpp),
* the threshold monitor `TcpServer::checkThresholds`.

Bytes are modelled as `Nat`, byte strings as `List Nat`, Qt maps as
association lists, and emitted Qt signals as structured event values
appended to an event list carried in the state.
-/

namespace ClientServerApp

/-! ### JSON-lite values

A small model of `QJsonValue` restricted to the shapes this protocol
uses: strings and numbers.  `jStr` / `jNum` / `jInt` mirror the Qt
accessors `QJsonValue::toString` / `toDouble` / `toInt`, which return a
default value (`""` / `0.0` / `0`) when the key is absent or the value
has the wrong shape; `QJsonValue::toInt` additionally returns the
default when the double is not integral. -/

inductive JVal where
  | str (s : String)
  | num (q : Rat)
deriving DecidableEq

abbrev JObj := List (String × JVal)

def jVal (o : JObj) (k : String) : Option JVal :=
  match o with
  | [] => none
  | p :: rest => if p.1 = k then some p.2 else jVal rest k

def jStr (o : JObj) (k : String) : String :=
  match jVal o k with
  | some (JVal.str s) => s
  | _ => ""

def jNum (o : JObj) (k : String) : Rat :=
  match jVal o k with
  | some (JVal.num q) => q
  | _ => 0

def jInt (o : JObj) (k : String) : Int :=
  match jVal o k with
  | some (JVal.num q) => if q.den = 1 then q.num else 0
  | _ => 0

def jContains (o : JObj) (k : String) : Bool := (jVal o k).isSome

/-! ### Frame codec

`kMessageDelimiter = '\n'` (byte 10) and `kMaxBufferSize = 1 MiB` are the
constants of tcpserver.cpp / client.cpp.  `frameSplit` is the
buffer-and-split loop shared by both `onReadyRead` implementations:
it cuts the buffer at every delimiter, returning the list of delimited
segments (in order) together with the trailing remainder that carries no
delimiter.  The loop then processes exactly the non-empty segments
(`if (!message.isEmpty())`) and retains the remainder for the next
readyRead call. -/

def kMessageDelimiter : Nat := 10

def kMaxBufferSize : Nat := 1024 * 1024

def frameSplit : List Nat → List (List Nat) × List Nat
  | [] => ([], [])
  | b :: rest =>
    let p := frameSplit rest
    if b = kMessageDelimiter then ([] :: p.1, p.2)
    else
      match p with
      | ([], r) => ([], b :: r)
      | (m :: ms, r) => ((b :: m) :: ms, r)

/-- `sendToClient` / `sendMessage`: compact JSON text then the single
delimiter byte, written as one unit. -/
def encode (m : List Nat) : List Nat := m ++ [kMessageDelimiter]

/-- One `Client::onReadyRead` call on the device side (no size cap):
append the arrived chunk to the buffer, extract every complete frame,
process the non-empty ones, keep the remainder. -/
def feedStep (st : List (List Nat) × List Nat) (c : List Nat) :
    List (List Nat) × List Nat :=
  let p := frameSplit (st.2 ++ c)
  (st.1 ++ p.1.filter (fun m => !m.isEmpty), p.2)

/-- Feeding a whole sequence of chunks to the device-side receiver,
starting from an empty buffer; first component accumulates the processed
messages, second is the retained buffer. -/
def feedAll (chunks : List (List Nat)) : List (List Nat) × List Nat :=
  chunks.foldl feedStep ([], [])

/-- Result of one `TcpServer::onReadyRead` call: either the
buffer-overflow branch (log + `socket->abort()`, fatal to that one
connection) or the extracted messages plus retained buffer. -/
inductive FeedResult where
  | overflow
  | ok (msgs : List (List Nat)) (buf : List Nat)
deriving DecidableEq

/-- The state of `receive_buffers_[socket]` right after line
`receive_buffers_[socket].append(socket->readAll())` and before the
overflow check. -/
def appendedBuffer (buf chunk : List Nat) : List Nat := buf ++ chunk

/-- One `TcpServer::onReadyRead` call on the collector side: append,
then check `size() > kMaxBufferSize` (abort on overflow), then extract
complete frames. -/
def serverFeed (buf chunk : List Nat) : FeedResult :=
  let b := appendedBuffer buf chunk
  if kMaxBufferSize < b.length then FeedResult.overflow
  else
    let p := frameSplit b
    FeedResult.ok (p.1.filter (fun m => !m.isEmpty)) p.2

/-- Feeding a sequence of chunks to the collector-side receiver:
`none` when some call hit the overflow branch (connection aborted),
otherwise the accumulated messages and the final retained buffer. -/
def serverRun : List Nat → List (List Nat) → List (List Nat) →
    Option (List (List Nat) × List Nat)
  | buf, acc, [] => some (acc, buf)
  | buf, acc, c :: cs =>
    match serverFeed buf c with
    | FeedResult.overflow => none
    | FeedResult.ok ms b => serverRun b (acc ++ ms) cs

/-- The buffers retained between collector-side receive calls (the live
states of `receive_buffers_[socket]` at the call boundaries), up to and
excluding an aborting call. -/
def serverBufTrace : List Nat → List (List Nat) → List (List Nat)
  | buf, [] => [buf]
  | buf, c :: cs =>
    buf :: (match serverFeed buf c with
      | FeedResult.overflow => []
      | FeedResult.ok _ b => serverBufTrace b cs)

/-! #### Codec lemmas -/

theorem frameSplit_no_delim (l : List Nat) (h : kMessageDelimiter ∉ l) :
    frameSplit l = ([], l) := by
  induction l with
  | nil => rfl
  | cons b rest ih =>
    have hb : ¬ b = kMessageDelimiter := fun hb => h (by simp [hb])
    have hr : kMessageDelimiter ∉ rest := fun hm => h (List.mem_cons_of_mem _ hm)
    simp [frameSplit, ih hr, hb]

theorem frameSplit_delim_append (m rest : List Nat)
    (h : kMessageDelimiter ∉ m) :
    frameSplit (m ++ kMessageDelimiter :: rest) =
      (m :: (frameSplit rest).1, (frameSplit rest).2) := by
  induction m with
  | nil => simp [frameSplit]
  | cons b m ih =>
    have hb : ¬ b = kMessageDelimiter := fun hb => h (by simp [hb])
    have hm : kMessageDelimiter ∉ m := fun hmm => h (List.mem_cons_of_mem _ hmm)
    simp [frameSplit, List.append_eq, ih hm, hb]

theorem frameSplit_append (xs ys : List Nat) :
    frameSplit (xs ++ ys) =
      ((frameSplit xs).1 ++ (frameSplit ((frameSplit xs).2 ++ ys)).1,
       (frameSplit ((frameSplit xs).2 ++ ys)).2) := by
  induction xs with
  | nil => simp [frameSplit]
  | cons b xs ih =>
    by_cases hb : b = kMessageDelimiter
    · subst hb
      simp [frameSplit, List.append_eq, ih]
    · rcases hA : frameSplit xs with ⟨ms, r⟩
      rcases ms with _ | ⟨a, as⟩
      · rcases hB : frameSplit (r ++ ys) with ⟨bs, br⟩
        rcases bs with _ | ⟨m, ms2⟩
        · simp [frameSplit, hA, hb, ih, hB]
        · simp [frameSplit, hA, hb, ih, hB]
      · rcases hB : frameSplit (r ++ ys) with ⟨bs, br⟩
        simp [frameSplit, hA, hb, ih, hB]

theorem frameSplit_rem_no_delim (l : List Nat) :
    kMessageDelimiter ∉ (frameSplit l).2 := by
  induction l with
  | nil => simp [frameSplit]
  | cons b rest ih =>
    by_cases hb : b = kMessageDelimiter
    · subst hb; simpa [frameSplit] using ih
    · rcases hA : frameSplit rest with ⟨ms, r⟩
      rcases ms with _ | ⟨a, as⟩ <;>
        simp_all [frameSplit, hb, eq_comm]

theorem frameSplit_rem_length (l : List Nat) :
    (frameSplit l).2.length ≤ l.length := by
  induction l with
  | nil => simp [frameSplit]
  | cons b rest ih =>
    by_cases hb : b = kMessageDelimiter
    · subst hb
      simp only [frameSplit, if_pos rfl]
      exact ih.trans (Nat.le_succ _)
    · rcases hA : frameSplit rest with ⟨ms, r⟩
      rcases ms with _ | ⟨a, as⟩ <;>
        simp_all [frameSplit, hb, Nat.succ_le_succ, Nat.le_succ_of_le]

/-- Streaming equals batch on the device side: folding `feedStep` over any
chunk sequence from a delimiter-free buffer processes exactly the
non-empty frames of the concatenated bytes and retains its trailing
remainder. -/
theorem foldl_feedStep (chunks : List (List Nat)) :
    ∀ acc buf, kMessageDelimiter ∉ buf →
      chunks.foldl feedStep (acc, buf) =
        (acc ++ (frameSplit (buf ++ chunks.flatten)).1.filter (fun m => !m.isEmpty),
         (frameSplit (buf ++ chunks.flatten)).2) := by
  induction chunks with
  | nil =>
    intro acc buf hbuf
    simp [frameSplit_no_delim buf hbuf]
  | cons c cs ih =>
    intro acc buf hbuf
    have hrem : kMessageDelimiter ∉ (frameSplit (buf ++ c)).2 :=
      frameSplit_rem_no_delim _
    simp only [List.foldl_cons, feedStep, List.flatten_cons]
    rw [ih _ _ hrem, ← List.append_assoc buf c cs.flatten,
        frameSplit_append (buf ++ c) cs.flatten]
    simp [List.filter_append]

theorem feedAll_eq (chunks : List (List Nat)) :
    feedAll chunks =
      ((frameSplit chunks.flatten).1.filter (fun m => !m.isEmpty),
       (frameSplit chunks.flatten).2) := by
  have h := foldl_feedStep chunks [] [] (by simp)
  simpa [feedAll] using h

/-- A delimiter-free byte list followed by the delimiter splits into that
single frame with an empty remainder. -/
theorem frameSplit_encode (m : List Nat) (h : kMessageDelimiter ∉ m) :
    frameSplit (encode m) = ([m], []) := by
  have := frameSplit_delim_append m [] h
  simpa [encode, frameSplit] using this

/-- Splitting a byte list `b ++ t = m ++ delimiter` with `m`
delimiter-free: either `b` is still a strict delimiter-free portion of
the stream, or `b` is the whole stream. -/
theorem append_eq_encode_cases (b t m : List Nat)
    (hm : kMessageDelimiter ∉ m)
    (h : b ++ t = m ++ [kMessageDelimiter]) :
    (kMessageDelimiter ∉ b ∧ t ≠ []) ∨
      (b = m ++ [kMessageDelimiter] ∧ t = []) := by
  induction b generalizing m with
  | nil =>
    left
    refine ⟨by simp, ?_⟩
    intro ht
    subst ht
    simp at h
  | cons x b ih =>
    rcases m with _ | ⟨y, m'⟩
    · simp at h
      obtain ⟨hx, hbt⟩ := h
      have hb : b = [] := by
        cases b with
        | nil => rfl
        | cons z zs => simp at hbt
      have ht : t = [] := by
        subst hb; simpa using hbt
      right
      subst hb
      simp [hx, ht]
    · simp only [List.cons_append, List.cons.injEq] at h
      obtain ⟨hxy, hrest⟩ := h
      have hy : y ≠ kMessageDelimiter := fun hh => hm (by simp [hh])
      have hm' : kMessageDelimiter ∉ m' := fun hh => hm (by simp [hh])
      rcases ih m' hm' hrest with ⟨hnb, hnt⟩ | ⟨hb, ht⟩
      · left
        refine ⟨?_, hnt⟩
        intro hmem
        rcases List.mem_cons.mp hmem with hx | hx
        · exact hy (hxy ▸ hx.symm)
        · exact hnb hx
      · right
        subst hxy
        simp [hb, ht]

/-- Collector-side run equals the device-side fold whenever the stream is
one encoded message that fits the cap: the overflow branch is never
taken and the message is delivered whole. -/
theorem serverRun_delivers (m : List Nat) (hne : m ≠ [])
    (hm : kMessageDelimiter ∉ m)
    (hcap : (encode m).length ≤ kMaxBufferSize) :
    ∀ cs buf acc, kMessageDelimiter ∉ buf →
      buf ++ cs.flatten = encode m →
      serverRun buf acc cs = some (acc ++ [m], []) := by
  have hEmptyTail : ∀ cs acc, List.flatten cs = ([] : List Nat) →
      serverRun [] acc cs = some (acc, []) := by
    intro cs
    induction cs with
    | nil => intro acc _; rfl
    | cons c cs ih =>
      intro acc hj
      simp only [List.flatten_cons, List.append_eq_nil] at hj
      obtain ⟨hc, hcs⟩ := hj
      subst hc
      have hle : ¬ kMaxBufferSize < (appendedBuffer [] []).length := by
        simp [appendedBuffer]
      simp only [serverRun, serverFeed, hle, if_false, frameSplit]
      simpa using ih acc hcs
  intro cs
  induction cs with
  | nil =>
    intro buf acc hbuf hj
    exfalso
    apply hbuf
    have : buf = encode m := by simpa using hj
    rw [this, encode]
    simp
  | cons c cs ih =>
    intro buf acc hbuf hj
    simp only [List.flatten_cons] at hj
    rw [← List.append_assoc] at hj
    rcases append_eq_encode_cases (buf ++ c) cs.flatten m hm (by simpa [encode] using hj)
      with ⟨hnb, hnt⟩ | ⟨hb, ht⟩
    · -- the chunk does not yet complete the message
      have hcap2 : m.length + 1 ≤ kMaxBufferSize := by
        simpa [encode] using hcap
      have hpos : 0 < cs.flatten.length := List.length_pos.mpr hnt
      have hsum : buf.length + c.length + cs.flatten.length = m.length + 1 := by
        have h1 : (buf ++ c).length + cs.flatten.length = m.length + 1 := by
          rw [← List.length_append, hj]
          simp [encode]
        simpa using h1
      have hle : ¬ kMaxBufferSize < buf.length + c.length := by
        omega
      simp only [serverRun, serverFeed, appendedBuffer, List.length_append,
        hle, if_false, frameSplit_no_delim _ hnb]
      simpa using ih (buf ++ c) acc hnb hj
    · -- the chunk completes the message; the rest of the stream is empty
      have hcap2 : m.length + 1 ≤ kMaxBufferSize := by
        simpa [encode] using hcap
      have hfs : frameSplit (m ++ [kMessageDelimiter]) = ([m], []) := by
        simpa [encode] using frameSplit_encode m hm
      have hle : ¬ kMaxBufferSize < (m ++ [kMessageDelimiter]).length := by
        simp only [List.length_append, List.length_cons, List.length_nil]
        omega
      have hfil : List.filter (fun x => !x.isEmpty) [m] = [m] := by
        simp [List.isEmpty_iff, hne]
      simp only [serverRun, serverFeed, appendedBuffer, hb, hfs, hle, if_false,
        hfil]
      exact hEmptyTail cs (acc ++ [m]) ht

/-- For delimiter-free input, every collector-side receive call either
aborts or retains the whole accumulated byte sequence; once the total
exceeds the cap, some call must abort. -/
theorem serverRun_overflow_of_no_delim (cs : List (List Nat)) :
    ∀ buf acc, kMessageDelimiter ∉ buf →
      (∀ c ∈ cs, kMessageDelimiter ∉ c) →
      buf.length ≤ kMaxBufferSize →
      kMaxBufferSize < (buf ++ cs.flatten).length →
      serverRun buf acc cs = none := by
  induction cs with
  | nil =>
    intro buf acc _ _ hle hgt
    exfalso
    simp at hgt
    omega
  | cons c cs ih =>
    intro buf acc hbuf hcs hle hgt
    have hc : kMessageDelimiter ∉ c := hcs c (by simp)
    have hcs' : ∀ d ∈ cs, kMessageDelimiter ∉ d := fun d hd => hcs d (by simp [hd])
    have hbc : kMessageDelimiter ∉ buf ++ c := by
      simp only [List.mem_append]
      rintro (h | h)
      · exact hbuf h
      · exact hc h
    by_cases hover : kMaxBufferSize < buf.length + c.length
    · simp [serverRun, serverFeed, appendedBuffer, hover]
    · have hle2 : ¬ kMaxBufferSize < buf.length + c.length := hover
      simp only [serverRun, serverFeed, appendedBuffer, List.length_append,
        hle2, if_false, frameSplit_no_delim _ hbc]
      have hgt2 : kMaxBufferSize < ((buf ++ c) ++ cs.flatten).length := by
        simpa [List.append_assoc] using hgt
      have hble : (buf ++ c).length ≤ kMaxBufferSize := by
        rw [List.length_append]
        omega
      simpa using ih (buf ++ c) _ hbc hcs' hble hgt2

/-- Every buffer retained between collector-side receive calls stays
within the cap: the overflow check runs before any bytes are kept for a
later call, and frame extraction only shrinks the buffer. -/
theorem serverBufTrace_bounded (cs : List (List Nat)) :
    ∀ buf, buf.length ≤ kMaxBufferSize →
      ∀ b ∈ serverBufTrace buf cs, b.length ≤ kMaxBufferSize := by
  induction cs with
  | nil =>
    intro buf hle b hb
    simp [serverBufTrace] at hb
    subst hb
    exact hle
  | cons c cs ih =>
    intro buf hle b hb
    simp only [serverBufTrace] at hb
    rcases List.mem_cons.mp hb with hb | hb
    · subst hb; exact hle
    · rcases hsf : serverFeed buf c with _ | ⟨ms, nb⟩
      · simp [hsf] at hb
      · rw [hsf] at hb
        simp only [] at hb
        have hnb : nb.length ≤ kMaxBufferSize := by
          have hcond : ¬ kMaxBufferSize < (appendedBuffer buf c).length := by
            intro hover
            simp [serverFeed, hover] at hsf
          have hnb2 : nb = (frameSplit (appendedBuffer buf c)).2 := by
            simp [serverFeed, hcond] at hsf
            exact hsf.2.symm
          have := frameSplit_rem_length (appendedBuffer buf c)
          rw [← hnb2] at this
          omega
        exact ih nb hnb b hb

/-! ### Device-side connection (client.cpp)

The `Client` state machine.  `ClientState` is the enum of client.h.  A
`ClientSt` carries the fields of the C++ object that the protocol logic
touches: `state_`, `client_id_`, `host_` / `port_`, the two single-shot
timers (`reconnect_timer_` as `Option Nat` holding the pending delay in
milliseconds, `send_timer_` as the Boolean `sendArmed` since its delay
is drawn at random), the transport state of `socket_`, and the list of
emitted Qt signals.  Timers being single-shot `QTimer` objects, at most
one reconnect can ever be pending; `Option` captures that. -/

inductive ClientState where
  | Disconnected
  | Connecting
  | WaitingConfirmation
  | WaitingStart
  | Running
  | Stopped
deriving DecidableEq

inductive SockState where
  | unconnected
  | connecting
  | connected
deriving DecidableEq

inductive CEvent where
  | stateChanged (st : ClientState)
  | connectedSig
  | disconnectedSig
  | logConnectingTo (host : String) (port : Nat)
  | logConnectedWaiting
  | logDisconnected
  | logReconnectingIn (seconds : Nat)
  | logConnectionConfirmed (id : Int) (status : String)
  | logReceivedStart
  | logReceivedStop
  | logUnknownType (t : String)
deriving DecidableEq

structure ClientSt where
  state : ClientState
  client_id : Int
  host : String
  port : Nat
  reconnect : Option Nat
  sendArmed : Bool
  socket : SockState
  events : List CEvent
deriving DecidableEq

def kReconnectIntervalMs : Nat := 5000

/-- The fresh `Client` object built by the constructor. -/
def initClient : ClientSt :=
  { state := ClientState.Disconnected
    client_id := -1
    host := ""
    port := 12345
    reconnect := none
    sendArmed := false
    socket := SockState.unconnected
    events := [] }

/-- `Client::setState`: record and signal the state only when it really
changes. -/
def setState (st : ClientState) (c : ClientSt) : ClientSt :=
  if c.state = st then c
  else { c with state := st, events := c.events ++ [CEvent.stateChanged st] }

/-- `Client::scheduleNextSend`: arm the single-shot send timer (with a
random delay in [10,100] ms, abstracted to the armed flag) only while
Running. -/
def scheduleNextSend (c : ClientSt) : ClientSt :=
  if c.state ≠ ClientState.Running then c
  else { c with sendArmed := true }

/-- `Client::connectToServer`: remember host/port, abort any non-idle
socket, enter Connecting, start the transport connect. -/
def connectToServer (host : String) (port : Nat) (c : ClientSt) : ClientSt :=
  let c1 := { c with host := host, port := port }
  let c2 :=
    if c1.socket ≠ SockState.unconnected then
      { c1 with socket := SockState.unconnected }
    else c1
  let c3 := setState ClientState.Connecting c2
  let c4 := { c3 with events := c3.events ++ [CEvent.logConnectingTo host port] }
  { c4 with socket := SockState.connecting }

/-- `Client::disconnect`: the explicit local stop.  Stops both timers,
closes the transport, and enters Disconnected. -/
def clientDisconnect (c : ClientSt) : ClientSt :=
  let c1 := { c with reconnect := none, sendArmed := false }
  let c2 :=
    if c1.socket ≠ SockState.unconnected then
      { c1 with socket := SockState.unconnected }
    else c1
  setState ClientState.Disconnected c2

/-- `Client::onConnected`: the transport reports the connection is up. -/
def onConnected (c : ClientSt) : ClientSt :=
  let c1 := { c with socket := SockState.connected,
                     events := c.events ++ [CEvent.logConnectedWaiting] }
  let c2 := setState ClientState.WaitingConfirmation c1
  { c2 with events := c2.events ++ [CEvent.connectedSig] }

/-- `Client::onDisconnected`: the transport reports the connection is
gone (remote close, or the tail of a local close).  Note that it stops
the send timer and clears the assigned ID but leaves `state_` untouched;
when the current state is not Disconnected (i.e. the disconnect was not
an explicit local stop) it arms the single-shot reconnect timer with the
fixed 5000 ms delay. -/
def onDisconnected (c : ClientSt) : ClientSt :=
  let c1 := { c with events := c.events ++ [CEvent.logDisconnected],
                     sendArmed := false,
                     client_id := -1,
                     socket := SockState.unconnected }
  let c2 :=
    if c1.state ≠ ClientState.Disconnected then
      { c1 with
          events := c1.events ++
            [CEvent.logReconnectingIn (kReconnectIntervalMs / 1000)],
          reconnect := some kReconnectIntervalMs }
    else c1
  { c2 with events := c2.events ++ [CEvent.disconnectedSig] }

/-- `Client::onReconnectTimer`: the single-shot timer fires (so it is no
longer pending) and, unless the machine was locally stopped, reconnects
to the remembered host and port. -/
def onReconnectTimer (c : ClientSt) : ClientSt :=
  let c0 := { c with reconnect := none }
  if c0.state ≠ ClientState.Disconnected then
    connectToServer c0.host c0.port c0
  else c0

/-- `Client::processServerMessage` after a successful JSON parse:
dispatch on the `type` field.  A `Command` whose value is neither
`"start"` nor `"stop"` falls through both branches and does nothing at
all; only an unrecognized `type` is logged. -/
def processServerMessage (obj : JObj) (c : ClientSt) : ClientSt :=
  let type := jStr obj "type"
  if type = "ConnectionConfirm" then
    let c1 := { c with client_id := jInt obj "client_id" }
    let c2 := { c1 with
      events := c1.events ++
        [CEvent.logConnectionConfirmed (jInt obj "client_id") (jStr obj "status")] }
    setState ClientState.WaitingStart c2
  else if type = "Command" then
    let command := jStr obj "command"
    if command = "start" then
      let c1 := { c with events := c.events ++ [CEvent.logReceivedStart] }
      scheduleNextSend (setState ClientState.Running c1)
    else if command = "stop" then
      let c1 := { c with events := c.events ++ [CEvent.logReceivedStop],
                         sendArmed := false }
      setState ClientState.Stopped c1
    else c
  else { c with events := c.events ++ [CEvent.logUnknownType type] }

/-! ### Collector-side registry (tcpserver.cpp)

`QMap` keyed maps are modelled as association lists with first-match
lookup; `mInsert` replaces any existing binding, `mErase` removes it,
and `mUpdate` has the `operator[]` semantics of modifying the present
value or inserting a modified default-constructed one.  `QTcpSocket*`
handles are modelled as `Nat`; whether a socket is currently in
`ConnectedState` (the check of `sendToClient`) is supplied by the
environment function `conn`. -/

def mLookup {K V : Type} [DecidableEq K] (m : List (K × V)) (k : K) : Option V :=
  match m with
  | [] => none
  | p :: rest => if p.1 = k then some p.2 else mLookup rest k

def mErase {K V : Type} [DecidableEq K] (m : List (K × V)) (k : K) : List (K × V) :=
  match m with
  | [] => []
  | p :: rest => if p.1 = k then mErase rest k else p :: mErase rest k

def mInsert {K V : Type} [DecidableEq K] (m : List (K × V)) (k : K) (v : V) :
    List (K × V) :=
  (k, v) :: mErase m k

def mUpdate {K V : Type} [DecidableEq K] (m : List (K × V)) (k : K)
    (f : V → V) (dflt : V) : List (K × V) :=
  mInsert m k (f ((mLookup m k).getD dflt))

theorem mLookup_mErase {K V : Type} [DecidableEq K] (m : List (K × V))
    (k k2 : K) :
    mLookup (mErase m k) k2 = if k2 = k then none else mLookup m k2 := by
  induction m with
  | nil => simp [mErase, mLookup]
  | cons p rest ih =>
    by_cases hpk : p.1 = k
    · rw [mErase, if_pos hpk, ih]
      by_cases hk : k2 = k
      · simp [hk]
      · have hp2 : ¬ p.1 = k2 := by
          rw [hpk]; exact fun h => hk h.symm
        simp [mLookup, hk, hp2]
    · rw [mErase, if_neg hpk]
      by_cases hp2 : p.1 = k2
      · have hk : ¬ k2 = k := fun h => hpk (by rw [hp2, h])
        simp [mLookup, hp2, hk]
      · rw [mLookup, if_neg hp2, ih]
        by_cases hk : k2 = k
        · simp [hk]
        · simp [mLookup, hk, hp2]

theorem mem_mErase {K V : Type} [DecidableEq K] (p : K × V)
    (m : List (K × V)) (k : K) :
    p ∈ mErase m k ↔ p ∈ m ∧ p.1 ≠ k := by
  induction m with
  | nil => simp [mErase]
  | cons q rest ih =>
    by_cases hqk : q.1 = k
    · rw [mErase, if_pos hqk, ih]
      constructor
      · rintro ⟨hp, hne⟩
        exact ⟨List.mem_cons_of_mem _ hp, hne⟩
      · rintro ⟨hp, hne⟩
        rcases List.mem_cons.mp hp with hp | hp
        · exact absurd (by rw [hp]; exact hqk) hne
        · exact ⟨hp, hne⟩
    · rw [mErase, if_neg hqk]
      constructor
      · intro hp
        rcases List.mem_cons.mp hp with hp | hp
        · exact ⟨List.mem_cons.mpr (Or.inl hp), by rw [hp]; exact hqk⟩
        · obtain ⟨h1, h2⟩ := ih.mp hp
          exact ⟨List.mem_cons_of_mem _ h1, h2⟩
      · rintro ⟨hp, hne⟩
        rcases List.mem_cons.mp hp with hp | hp
        · exact List.mem_cons.mpr (Or.inl hp)
        · exact List.mem_cons_of_mem _ (ih.mpr ⟨hp, hne⟩)

theorem mLookup_mInsert {K V : Type} [DecidableEq K] (m : List (K × V))
    (k k2 : K) (v : V) :
    mLookup (mInsert m k v) k2 = if k2 = k then some v else mLookup m k2 := by
  by_cases hk : k2 = k
  · simp [mInsert, mLookup, hk]
  · have hk2 : ¬ k = k2 := fun h => hk h.symm
    simp [mInsert, mLookup, hk, hk2, mLookup_mErase]

theorem mem_mInsert {K V : Type} [DecidableEq K] (p : K × V)
    (m : List (K × V)) (k : K) (v : V) :
    p ∈ mInsert m k v ↔ p = (k, v) ∨ (p ∈ m ∧ p.1 ≠ k) := by
  simp [mInsert, mem_mErase]

theorem mLookup_mem {K V : Type} [DecidableEq K] {m : List (K × V)}
    {k : K} {v : V} (h : mLookup m k = some v) : (k, v) ∈ m := by
  induction m with
  | nil => simp [mLookup] at h
  | cons p rest ih =>
    by_cases hp : p.1 = k
    · rw [mLookup, if_pos hp] at h
      have h2 : p.2 = v := by injection h
      have hpe : (k, v) = p := by
        rw [← hp, ← h2]
      rw [hpe]
      exact List.mem_cons_self _ _
    · rw [mLookup, if_neg hp] at h
      exact List.mem_cons_of_mem _ (ih h)

theorem mLookup_none_forall {K V : Type} [DecidableEq K] {m : List (K × V)}
    {k : K} (h : mLookup m k = none) : ∀ p ∈ m, p.1 ≠ k := by
  induction m with
  | nil => simp
  | cons p rest ih =>
    by_cases hp : p.1 = k
    · simp [mLookup, hp] at h
    · simp only [mLookup, hp, if_false] at h
      intro q hq
      rcases List.mem_cons.mp hq with hq | hq
      · rw [hq]; exact hp
      · exact ih h q hq

theorem mLookup_mUpdate_self {K V : Type} [DecidableEq K] (m : List (K × V))
    (k : K) (f : V → V) (d v : V) (h : mLookup m k = some v) :
    mLookup (mUpdate m k f d) k = some (f v) := by
  simp [mUpdate, h, mLookup_mInsert]

theorem mLookup_mUpdate_ne {K V : Type} [DecidableEq K] (m : List (K × V))
    (k k2 : K) (f : V → V) (d : V) (h : k2 ≠ k) :
    mLookup (mUpdate m k f d) k2 = mLookup m k2 := by
  simp [mUpdate, mLookup_mInsert, h]

/-- `ClientInfo` of tcpserver.h. -/
structure ClientInfo where
  id : Int
  ip_address : String
  port : Nat
  is_connected : Bool
  is_running : Bool
deriving DecidableEq

/-- The value-initialized `ClientInfo` that `QMap::operator[]` would
insert for an absent key. -/
def defaultClientInfo : ClientInfo :=
  { id := 0, ip_address := "", port := 0, is_connected := false, is_running := false }

/-- `ThresholdConfig` of tcpserver.h with its in-class defaults. -/
structure ThresholdConfig where
  max_latency : Rat := 100
  max_packet_loss : Rat := 5
  max_cpu_usage : Int := 90
  max_memory_usage : Int := 90
deriving DecidableEq

/-- The Qt signals `TcpServer` emits, plus its log lines in structured
form (each constructor corresponds to one `logMessage` format string
with its arguments). -/
inductive SEvent where
  | clientConnected (info : ClientInfo)
  | clientDisconnected (id : Int)
  | clientStatusChanged (id : Int) (running : Bool)
  | dataReceived (id : Int) (type : String)
  | serverStarted
  | serverStopped
  | logClientNotFound (id : Int)
  | logStartedClient (id : Int)
  | logStoppedClient (id : Int)
  | logClientConnected (id : Int) (ip : String) (port : Nat)
  | logClientDisconnected (id : Int)
  | logBufferOverflow (id : Int)
  | logServerStopped
  | logWarning (id : Int) (text : String)
deriving DecidableEq

/-- The mutable fields of `TcpServer` that the registry logic touches,
plus the trace of written messages (`sent`, in write order) and emitted
signals (`events`). -/
structure ServerState where
  clients : List (Nat × ClientInfo)
  client_sockets : List (Int × Nat)
  receive_buffers : List (Nat × List Nat)
  next_client_id : Int
  sent : List (Nat × JObj)
  events : List SEvent
deriving DecidableEq

/-- `TcpServer` constructor state: empty maps, `next_client_id_ = 1`. -/
def initServerState : ServerState :=
  { clients := [], client_sockets := [], receive_buffers := []
    next_client_id := 1, sent := [], events := [] }

/-- `TcpServer::generateClientId`: return the counter, post-increment. -/
def generateClientId (s : ServerState) : Int × ServerState :=
  (s.next_client_id, { s with next_client_id := s.next_client_id + 1 })

/-- `TcpServer::sendToClient`: silently do nothing unless the socket is
in ConnectedState; otherwise write the compact JSON plus delimiter as
one unit (write errors only produce a log and are not modelled). -/
def sendToClient (conn : Nat → Bool) (socket : Nat) (message : JObj)
    (s : ServerState) : ServerState :=
  if conn socket then { s with sent := s.sent ++ [(socket, message)] } else s

def connectionConfirmMsg (id : Int) : JObj :=
  [("type", JVal.str "ConnectionConfirm"),
   ("client_id", JVal.num id),
   ("status", JVal.str "connected")]

def commandMsg (command : String) : JObj :=
  [("type", JVal.str "Command"), ("command", JVal.str command)]

/-- One iteration of the `TcpServer::onNewConnection` accept loop for a
freshly accepted socket handle with the given peer address and port. -/
def onNewConnection (conn : Nat → Bool) (socket : Nat) (ip : String)
    (port : Nat) (s : ServerState) : ServerState :=
  let (id, s0) := generateClientId s
  let info : ClientInfo :=
    { id := id, ip_address := ip, port := port,
      is_connected := true, is_running := false }
  let s1 := { s0 with
    clients := mInsert s0.clients socket info,
    client_sockets := mInsert s0.client_sockets info.id socket,
    receive_buffers := mInsert s0.receive_buffers socket [] }
  let s2 := sendToClient conn socket (connectionConfirmMsg info.id) s1
  { s2 with events := s2.events ++
      [SEvent.clientConnected info, SEvent.logClientConnected info.id ip port] }

/-- `TcpServer::onClientDisconnected`: ignore unknown senders, otherwise
signal and remove both map entries and the receive buffer together. -/
def onClientDisconnected (socket : Nat) (s : ServerState) : ServerState :=
  match mLookup s.clients socket with
  | none => s
  | some info =>
    { s with
        events := s.events ++
          [SEvent.clientDisconnected info.id, SEvent.logClientDisconnected info.id],
        client_sockets := mErase s.client_sockets info.id,
        clients := mErase s.clients socket,
        receive_buffers := mErase s.receive_buffers socket }

/-- `TcpServer::startClient`: unknown IDs get a log line and nothing
else; otherwise mark the record running, send the start command (a
silent no-op on a dead socket), and signal the status change. -/
def startClient (conn : Nat → Bool) (client_id : Int) (s : ServerState) :
    ServerState :=
  match mLookup s.client_sockets client_id with
  | none => { s with events := s.events ++ [SEvent.logClientNotFound client_id] }
  | some socket =>
    let s1 := { s with
      clients := mUpdate s.clients socket
        (fun i => { i with is_running := true }) defaultClientInfo }
    let s2 := sendToClient conn socket (commandMsg "start") s1
    { s2 with events := s2.events ++
        [SEvent.clientStatusChanged client_id true,
         SEvent.logStartedClient client_id] }

/-- `TcpServer::stopClient`: mirror image of `startClient`. -/
def stopClient (conn : Nat → Bool) (client_id : Int) (s : ServerState) :
    ServerState :=
  match mLookup s.client_sockets client_id with
  | none => { s with events := s.events ++ [SEvent.logClientNotFound client_id] }
  | some socket =>
    let s1 := { s with
      clients := mUpdate s.clients socket
        (fun i => { i with is_running := false }) defaultClientInfo }
    let s2 := sendToClient conn socket (commandMsg "stop") s1
    { s2 with events := s2.events ++
        [SEvent.clientStatusChanged client_id false,
         SEvent.logStoppedClient client_id] }

/-- `TcpServer::stopServer`: abort every client socket, clear all three
maps, and (when the acceptor was listening) signal the shutdown. -/
def stopServer (listening : Bool) (s : ServerState) : ServerState :=
  let s1 := { s with clients := [], client_sockets := [], receive_buffers := [] }
  if listening then
    { s1 with events := s1.events ++ [SEvent.logServerStopped, SEvent.serverStopped] }
  else s1

/-! ### Registry events and runs -/

inductive REvent where
  | accept (socket : Nat) (ip : String) (port : Nat)
  | disconnect (socket : Nat)
  | startCmd (id : Int)
  | stopCmd (id : Int)
  | shutdown (listening : Bool)

def serverStep (conn : Nat → Bool) (s : ServerState) : REvent → ServerState
  | REvent.accept socket ip port => onNewConnection conn socket ip port s
  | REvent.disconnect socket => onClientDisconnected socket s
  | REvent.startCmd id => startClient conn id s
  | REvent.stopCmd id => stopClient conn id s
  | REvent.shutdown l => stopServer l s

def runServer (conn : Nat → Bool) (s : ServerState) (evs : List REvent) :
    ServerState :=
  evs.foldl (serverStep conn) s

/-- The client IDs handed out by `generateClientId` at the accept events
of a run, in order. -/
def acceptedIds (conn : Nat → Bool) (s : ServerState) : List REvent → List Int
  | [] => []
  | e :: evs =>
    match e with
    | REvent.accept _ _ _ =>
      s.next_client_id :: acceptedIds conn (serverStep conn s e) evs
    | _ => acceptedIds conn (serverStep conn s e) evs

def countAccepts : List REvent → Nat
  | [] => 0
  | REvent.accept _ _ _ :: evs => countAccepts evs + 1
  | _ :: evs => countAccepts evs

/-! ### Registry invariant (dual lookup consistency) -/

/-- The two lookup structures agree, the receive-buffer map covers
exactly the registered sockets, and every issued ID is below the
counter. -/
def Consistent (s : ServerState) : Prop :=
  (∀ p ∈ s.clients, mLookup s.client_sockets p.2.id = some p.1) ∧
  (∀ q ∈ s.client_sockets,
      (mLookup s.clients q.2).map ClientInfo.id = some q.1) ∧
  (∀ p ∈ s.clients, (mLookup s.receive_buffers p.1).isSome) ∧
  (∀ b ∈ s.receive_buffers, (mLookup s.clients b.1).isSome) ∧
  (∀ p ∈ s.clients, p.2.id < s.next_client_id)

instance (s : ServerState) : Decidable (Consistent s) := by
  unfold Consistent
  infer_instance

/-! ### Threshold monitor (tcpserver.cpp, checkThresholds) -/

/-- One threshold warning, carrying the breached value that the C++
format string interpolates into the warning text. -/
inductive Warning where
  | highLatency (v : Rat)
  | highPacketLoss (v : Rat)
  | highCpu (v : Int)
  | highMemory (v : Int)
deriving DecidableEq

/-- `TcpServer::checkThresholds`: against a config snapshot, evaluate
each rule independently with strict `>` comparisons, then emit every
collected warning tagged with the originating client's ID (the
`WARNING [Client id]: ...` log line). -/
def checkThresholds (client_id : Int) (data : JObj)
    (config : ThresholdConfig) : List (Int × Warning) :=
  let type := jStr data "type"
  let warnings : List Warning :=
    if type = "NetworkMetrics" then
      (if jContains data "latency" then
        (if config.max_latency < jNum data "latency" then
          [Warning.highLatency (jNum data "latency")] else [])
       else []) ++
      (if jContains data "packet_loss" then
        (if config.max_packet_loss < jNum data "packet_loss" then
          [Warning.highPacketLoss (jNum data "packet_loss")] else [])
       else [])
    else if type = "DeviceStatus" then
      (if jContains data "cpu_usage" then
        (if config.max_cpu_usage < jInt data "cpu_usage" then
          [Warning.highCpu (jInt data "cpu_usage")] else [])
       else []) ++
      (if jContains data "memory_usage" then
        (if config.max_memory_usage < jInt data "memory_usage" then
          [Warning.highMemory (jInt data "memory_usage")] else [])
       else [])
    else []
  warnings.map (fun w => (client_id, w))

theorem serverFeed_overflow (buf chunk : List Nat)
    (h : kMaxBufferSize < (appendedBuffer buf chunk).length) :
    serverFeed buf chunk = FeedResult.overflow := by
  simp only [serverFeed]
  rw [if_pos h]

theorem serverRun_cons_overflow (buf : List Nat) (acc : List (List Nat))
    (c : List Nat) (cs : List (List Nat))
    (h : serverFeed buf c = FeedResult.overflow) :
    serverRun buf acc (c :: cs) = none := by
  simp only [serverRun, h]

/-! ### Claim C1 — framing round-trip -/

/-- The byte rendering of the compact JSON object with one key `"a"`
whose string value is 2^20 letters `a` — a well-formed JSON message (no
raw newline can occur in compact JSON text) whose encoding exceeds the
collector's 1 MiB buffer cap. -/
def bigMsg : List Nat :=
  [123, 34, 97, 34, 58, 34] ++ List.replicate 1048576 97 ++ [34, 125]

/-- C1 counterexample: the claim quantifies over every well-formed JSON
message and names the collector-side `TcpServer::onReadyRead` among the
receivers, but that loop checks the 1 MiB cap before extracting frames,
so feeding the encoding of a message of about 1 MiB aborts the
connection instead of yielding the message back. -/
theorem c1_counterexample :
    bigMsg ≠ [] ∧ kMessageDelimiter ∉ bigMsg ∧
    serverRun [] [] [encode bigMsg] = none ∧
    serverRun [] [] [encode bigMsg] ≠ some ([bigMsg], []) := by
  have hlen : bigMsg.length = 1048584 := by
    rw [bigMsg, List.length_append, List.length_append, List.length_replicate]
    norm_num
  have hne : bigMsg ≠ [] := by
    intro h
    rw [h] at hlen
    simp at hlen
  have hnd : kMessageDelimiter ∉ bigMsg := by
    rw [bigMsg]
    intro hmem
    simp only [kMessageDelimiter, List.mem_append, List.mem_cons,
      List.mem_replicate, List.not_mem_nil, or_false] at hmem
    omega
  have hover : kMaxBufferSize < (appendedBuffer [] (encode bigMsg)).length := by
    have h2 : (appendedBuffer [] (encode bigMsg)).length = bigMsg.length + 1 := by
      rw [appendedBuffer, List.nil_append, encode, List.length_append,
        List.length_singleton]
    rw [h2, hlen]
    norm_num [kMaxBufferSize]
  have hfeed : serverFeed [] (encode bigMsg) = FeedResult.overflow :=
    serverFeed_overflow [] (encode bigMsg) hover
  have hrun : serverRun [] [] [encode bigMsg] = none :=
    serverRun_cons_overflow [] [] (encode bigMsg) [] hfeed
  exact ⟨hne, hnd, hrun, by rw [hrun]; simp⟩

/-- C1 (amended): encoding a well-formed message `m` (whose compact JSON
text is non-empty and delimiter-free) and feeding the bytes to the
receiver loop yields exactly `m` back for every way of splitting the
bytes across feed calls — unconditionally for the device-side receiver,
and for the collector-side receiver whenever `encode m` fits the 1 MiB
cap.  Trailing delimiter-free bytes are retained in the buffer, and
empty frames from consecutive delimiters are discarded silently. -/
theorem c1_framing_roundtrip :
    (∀ (m : List Nat) (chunks : List (List Nat)),
        m ≠ [] → kMessageDelimiter ∉ m → chunks.flatten = encode m →
        feedAll chunks = ([m], [])) ∧
    (∀ chunks : List (List Nat),
        kMessageDelimiter ∉ chunks.flatten →
        feedAll chunks = ([], chunks.flatten)) ∧
    (∀ (m : List Nat) (chunks : List (List Nat)),
        m ≠ [] → kMessageDelimiter ∉ m →
        chunks.flatten = encode m ++ [kMessageDelimiter] →
        feedAll chunks = ([m], [])) ∧
    (∀ (m : List Nat) (chunks : List (List Nat)),
        m ≠ [] → kMessageDelimiter ∉ m →
        (encode m).length ≤ kMaxBufferSize →
        chunks.flatten = encode m →
        serverRun [] [] chunks = some ([m], [])) := by
  refine ⟨?_, ?_, ?_, ?_⟩
  · intro m chunks hne hnd hj
    rw [feedAll_eq, hj, frameSplit_encode m hnd]
    simp [List.isEmpty_iff, hne]
  · intro chunks hnd
    rw [feedAll_eq, frameSplit_no_delim _ hnd]
    simp
  · intro m chunks hne hnd hj
    have hsplit : frameSplit (encode m ++ [kMessageDelimiter]) =
        ([m, []], []) := by
      have h1 : encode m ++ [kMessageDelimiter] =
          m ++ kMessageDelimiter :: [kMessageDelimiter] := by
        simp [encode]
      rw [h1, frameSplit_delim_append m _ hnd]
      simp [frameSplit]
    rw [feedAll_eq, hj, hsplit]
    simp [List.isEmpty_iff, hne]
  · intro m chunks hne hnd hcap hj
    simpa using serverRun_delivers m hne hnd hcap chunks [] [] (by simp) (by simpa using hj)

theorem c1_framing_roundtrip_witness :
    feedAll [[123], [125, 10]] = ([[123, 125]], []) ∧
    feedAll [[65], [66]] = ([], [65, 66]) ∧
    feedAll [[123, 125, 10, 10]] = ([[123, 125]], []) ∧
    serverRun [] [] [[123, 125, 10]] = some ([[123, 125]], []) :=
  ⟨c1_framing_roundtrip.1 [123, 125] [[123], [125, 10]]
      (by decide) (by decide) (by decide),
   c1_framing_roundtrip.2.1 [[65], [66]] (by decide),
   c1_framing_roundtrip.2.2.1 [123, 125] [[123, 125, 10, 10]]
      (by decide) (by decide) (by decide),
   c1_framing_roundtrip.2.2.2 [123, 125] [[123, 125, 10]]
      (by decide) (by decide) (by decide) (by decide)⟩

/-! ### Claim C2 — overflow guard -/

/-- A single delimiter-free read of cap+1 bytes. -/
def overCapChunk : List Nat := List.replicate 1048577 65

/-- C2 counterexample: `onReadyRead` appends the read bytes into
`receive_buffers_[socket]` first and only then checks the cap, so on the
overflowing call the stored per-connection buffer does hold more than
`kMaxBufferSize` bytes — refuting "the receive buffer never grows past
the cap at any point" — even though the same call then aborts the
connection as claimed. -/
theorem c2_counterexample :
    kMessageDelimiter ∉ overCapChunk ∧
    kMaxBufferSize < (appendedBuffer [] overCapChunk).length ∧
    serverFeed [] overCapChunk = FeedResult.overflow := by
  have hnd : kMessageDelimiter ∉ overCapChunk := by
    rw [overCapChunk]
    intro hmem
    rw [List.mem_replicate] at hmem
    exact absurd hmem.2 (by decide)
  have hover : kMaxBufferSize < (appendedBuffer [] overCapChunk).length := by
    simp only [appendedBuffer, List.nil_append, overCapChunk,
      List.length_replicate]
    norm_num [kMaxBufferSize]
  exact ⟨hnd, hover, serverFeed_overflow [] overCapChunk hover⟩

/-- C2 (amended): delimiter-free input whose total length exceeds the
1 MiB cap always drives the collector-side receive path into the fatal
overflow branch (log + `socket->abort()`), and the buffer retained
between receive calls never exceeds the cap — though during the
overflowing call itself the appended bytes momentarily sit in the buffer
above the cap (see the counterexample). -/
theorem c2_overflow_guard :
    (∀ chunks : List (List Nat),
        (∀ c ∈ chunks, kMessageDelimiter ∉ c) →
        kMaxBufferSize < chunks.flatten.length →
        serverRun [] [] chunks = none) ∧
    (∀ chunks : List (List Nat),
        ∀ b ∈ serverBufTrace [] chunks, b.length ≤ kMaxBufferSize) := by
  constructor
  · intro chunks hnd hgt
    exact serverRun_overflow_of_no_delim chunks [] [] (by simp) hnd
      (by simp) (by simpa using hgt)
  · intro chunks b hb
    exact serverBufTrace_bounded chunks [] (by simp) b hb

theorem c2_overflow_guard_witness :
    serverRun [] [] [overCapChunk] = none ∧
    ([] : List Nat).length ≤ kMaxBufferSize :=
  ⟨c2_overflow_guard.1 [overCapChunk]
      (by
        intro c hc
        rw [List.mem_singleton] at hc
        subst hc
        rw [overCapChunk]
        intro hmem
        rw [List.mem_replicate] at hmem
        exact absurd hmem.2 (by decide))
      (by
        simp only [List.flatten_cons, List.flatten_nil, List.append_nil,
          overCapChunk, List.length_replicate]
        norm_num [kMaxBufferSize]),
   c2_overflow_guard.2 [[65, 10]] [] (by decide)⟩

/-! ### Claim C3 — disconnect and reconnect policy -/

/-- A client in the Running state with a live transport. -/
def runningClient : ClientSt :=
  { state := ClientState.Running
    client_id := 3
    host := "localhost"
    port := 12345
    reconnect := none
    sendArmed := true
    socket := SockState.connected
    events := [] }

/-- C3 counterexample: a remote disconnect (the `onDisconnected` slot)
never writes `state_`, so from Running the machine stays in Running —
not Disconnected as the claim states; only the explicit local
`disconnect()` enters Disconnected. -/
theorem c3_counterexample :
    (onDisconnected runningClient).state = ClientState.Running ∧
    ClientState.Running ≠ ClientState.Disconnected := by
  constructor
  · decide
  · decide

/-- C3 (amended): an explicit local `disconnect()` takes any state to
Disconnected and cancels both timers without scheduling a reconnect; a
remote disconnect leaves the state field unchanged and, exactly when the
current state is not Disconnected (i.e. the disconnect was not an
explicit local stop), arms the one single-shot reconnect timer with the
fixed 5000 ms delay, whose expiry reconnects to the remembered last host
and port. -/
theorem c3_disconnect_reconnect :
    (∀ c : ClientSt,
        (clientDisconnect c).state = ClientState.Disconnected ∧
        (clientDisconnect c).reconnect = none ∧
        (clientDisconnect c).sendArmed = false) ∧
    (∀ c : ClientSt, c.state ≠ ClientState.Disconnected →
        (onDisconnected c).reconnect = some kReconnectIntervalMs ∧
        (onDisconnected c).state = c.state ∧
        (onDisconnected c).host = c.host ∧
        (onDisconnected c).port = c.port) ∧
    (∀ c : ClientSt, c.state = ClientState.Disconnected →
        (onDisconnected c).reconnect = c.reconnect) ∧
    (∀ c : ClientSt, c.state ≠ ClientState.Disconnected →
        onReconnectTimer c =
          connectToServer c.host c.port { c with reconnect := none }) := by
  refine ⟨fun c => ?_, fun c hc => ?_, fun c hc => ?_, fun c hc => ?_⟩
  · simp only [clientDisconnect, setState]
    split_ifs <;> simp_all
  · unfold onDisconnected
    simp [hc]
  · unfold onDisconnected
    simp [hc]
  · unfold onReconnectTimer
    simp [hc]

theorem c3_disconnect_reconnect_witness :
    (clientDisconnect runningClient).state = ClientState.Disconnected ∧
    (onDisconnected runningClient).reconnect = some kReconnectIntervalMs ∧
    (onDisconnected initClient).reconnect = initClient.reconnect ∧
    onReconnectTimer runningClient =
      connectToServer runningClient.host runningClient.port
        { runningClient with reconnect := none } :=
  ⟨(c3_disconnect_reconnect.1 runningClient).1,
   (c3_disconnect_reconnect.2.1 runningClient (by decide)).1,
   c3_disconnect_reconnect.2.2.1 initClient (by decide),
   c3_disconnect_reconnect.2.2.2 runningClient (by decide)⟩

/-! ### Claim C5 — threshold evaluation -/

/-- The threshold config with `max_latency = 100` (the in-class defaults
of tcpserver.h). -/
def cfgLat100 : ThresholdConfig := {}

def metricsLat150 : JObj :=
  [("type", JVal.str "NetworkMetrics"), ("latency", JVal.num 150)]

def metricsLat50 : JObj :=
  [("type", JVal.str "NetworkMetrics"), ("latency", JVal.num 50)]

def metricsLat100 : JObj :=
  [("type", JVal.str "NetworkMetrics"), ("latency", JVal.num 100)]

def metricsBoth : JObj :=
  [("type", JVal.str "NetworkMetrics"), ("latency", JVal.num 150),
   ("packet_loss", JVal.num 9)]

/-- C5: with `max_latency = 100`, latency 150 yields exactly the one
latency warning carrying the breached value 150; latency 50 yields none;
latency exactly 100 yields none (strict comparison); breaching both the
latency and packet-loss limits yields exactly those two warnings; and
every emitted warning is tagged with the originating connection's ID. -/
theorem c5_threshold_evaluation :
    checkThresholds 7 metricsLat150 cfgLat100 = [(7, Warning.highLatency 150)] ∧
    checkThresholds 7 metricsLat50 cfgLat100 = [] ∧
    checkThresholds 7 metricsLat100 cfgLat100 = [] ∧
    checkThresholds 7 metricsBoth cfgLat100 =
      [(7, Warning.highLatency 150), (7, Warning.highPacketLoss 9)] ∧
    (∀ (id : Int) (data : JObj) (config : ThresholdConfig),
        ∀ w ∈ checkThresholds id data config, w.1 = id) := by
  refine ⟨by decide, by decide, by decide, by decide, ?_⟩
  intro id data config w hw
  simp only [checkThresholds, List.mem_map] at hw
  obtain ⟨w0, _, hw0⟩ := hw
  rw [← hw0]

theorem c5_threshold_evaluation_witness :
    (7, Warning.highLatency 150) ∈ checkThresholds 7 metricsLat150 cfgLat100 ∧
    ((7 : Int), Warning.highLatency 150).1 = 7 :=
  ⟨by decide,
   c5_threshold_evaluation.2.2.2.2 7 metricsLat150 cfgLat100
     (7, Warning.highLatency 150) (by decide)⟩

/-! ### Claim C6 — unknown command -/

/-- A client waiting for the start command. -/
def waitingClient : ClientSt :=
  { state := ClientState.WaitingStart
    client_id := 4
    host := "localhost"
    port := 12345
    reconnect := none
    sendArmed := false
    socket := SockState.connected
    events := [] }

/-- C6 counterexample: a `Command` message with the unrecognized value
`"pause"` falls through both the `"start"` and `"stop"` branches of
`Client::processServerMessage` and does nothing at all — in particular
no log event is emitted, refuting the claim's "produces a log event"
(only unknown message types are logged). -/
theorem c6_counterexample :
    processServerMessage (commandMsg "pause") waitingClient = waitingClient ∧
    (processServerMessage (commandMsg "pause") waitingClient).events = [] := by
  constructor
  · decide
  · decide

/-- C6 (amended): in every device-side state, a `Command` message whose
command value is neither `"start"` nor `"stop"` leaves the whole client
object — state, timers, and event trace — completely unchanged: no state
transition, no error, no teardown, and also no log event. -/
theorem c6_unknown_command :
    ∀ (c : ClientSt) (obj : JObj),
      jStr obj "type" = "Command" →
      jStr obj "command" ≠ "start" →
      jStr obj "command" ≠ "stop" →
      processServerMessage obj c = c := by
  intro c obj ht hs1 hs2
  simp [processServerMessage, ht, hs1, hs2]

theorem c6_unknown_command_witness :
    processServerMessage (commandMsg "pause") initClient = initClient :=
  c6_unknown_command initClient (commandMsg "pause")
    (by decide) (by decide) (by decide)

/-! ### Claim C9 — device lifecycle run -/

def c9AfterConnect : ClientSt := connectToServer "localhost" 12345 initClient

def c9AfterUp : ClientSt := onConnected c9AfterConnect

def c9AfterConfirm : ClientSt :=
  processServerMessage (connectionConfirmMsg 7) c9AfterUp

def c9Running : ClientSt := processServerMessage (commandMsg "start") c9AfterConfirm

def c9Stopped : ClientSt := processServerMessage (commandMsg "stop") c9Running

/-- C9: from Disconnected, connect → transport-connected → receive
ConnectionConfirm (storing the assigned ID) → receive Command(start)
ends in Running with the send timer armed; a subsequent Command(stop)
ends in Stopped and cancels the pending send timer. -/
theorem c9_device_lifecycle :
    c9AfterConnect.state = ClientState.Connecting ∧
    c9AfterUp.state = ClientState.WaitingConfirmation ∧
    c9AfterConfirm.state = ClientState.WaitingStart ∧
    c9AfterConfirm.client_id = 7 ∧
    c9Running.state = ClientState.Running ∧
    c9Running.sendArmed = true ∧
    c9Stopped.state = ClientState.Stopped ∧
    c9Stopped.sendArmed = false := by
  decide

/-! ### Claim C4 — ID assignment -/

theorem onNewConnection_next_id (conn : Nat → Bool) (sock : Nat) (ip : String)
    (port : Nat) (s : ServerState) :
    (onNewConnection conn sock ip port s).next_client_id =
      s.next_client_id + 1 := by
  simp only [onNewConnection, generateClientId, sendToClient]
  split <;> rfl

theorem onClientDisconnected_next_id (sock : Nat) (s : ServerState) :
    (onClientDisconnected sock s).next_client_id = s.next_client_id := by
  unfold onClientDisconnected
  cases mLookup s.clients sock <;> rfl

theorem startClient_next_id (conn : Nat → Bool) (id : Int) (s : ServerState) :
    (startClient conn id s).next_client_id = s.next_client_id := by
  unfold startClient sendToClient
  cases mLookup s.client_sockets id
  · rfl
  · dsimp only
    split <;> rfl

theorem stopClient_next_id (conn : Nat → Bool) (id : Int) (s : ServerState) :
    (stopClient conn id s).next_client_id = s.next_client_id := by
  unfold stopClient sendToClient
  cases mLookup s.client_sockets id
  · rfl
  · dsimp only
    split <;> rfl

theorem stopServer_next_id (l : Bool) (s : ServerState) :
    (stopServer l s).next_client_id = s.next_client_id := by
  unfold stopServer
  split <;> rfl

/-- The IDs assigned at the accept events of any run are consecutive
integers starting at the current counter; only accepts move the
counter. -/
theorem acceptedIds_eq (conn : Nat → Bool) :
    ∀ (evs : List REvent) (s : ServerState),
      acceptedIds conn s evs =
        (List.range (countAccepts evs)).map
          (fun i : Nat => s.next_client_id + (i : Int)) := by
  intro evs
  induction evs with
  | nil => intro s; simp [acceptedIds, countAccepts]
  | cons e evs ih =>
    intro s
    rcases e with ⟨sock, ip, port⟩ | sock | id | id | l
    · show s.next_client_id ::
          acceptedIds conn (serverStep conn s (REvent.accept sock ip port)) evs = _
      rw [ih]
      simp only [serverStep]
      rw [onNewConnection_next_id conn sock ip port s,
          show countAccepts (REvent.accept sock ip port :: evs)
            = countAccepts evs + 1 from rfl,
          List.range_succ_eq_map, List.map_cons, List.map_map]
      congr 1
      · simp
      · apply List.map_congr_left
        intro a _
        simp only [Function.comp_apply]
        push_cast
        ring
    · show acceptedIds conn (serverStep conn s (REvent.disconnect sock)) evs = _
      rw [ih]
      simp only [serverStep]
      rw [onClientDisconnected_next_id sock s]
      rfl
    · show acceptedIds conn (serverStep conn s (REvent.startCmd id)) evs = _
      rw [ih]
      simp only [serverStep]
      rw [startClient_next_id conn id s]
      rfl
    · show acceptedIds conn (serverStep conn s (REvent.stopCmd id)) evs = _
      rw [ih]
      simp only [serverStep]
      rw [stopClient_next_id conn id s]
      rfl
    · show acceptedIds conn (serverStep conn s (REvent.shutdown l)) evs = _
      rw [ih]
      simp only [serverStep]
      rw [stopServer_next_id l s]
      rfl

/-- C4: over any event interleaving (accepts, disconnects, start/stop
commands, shutdowns) starting from the constructor state, the IDs
assigned by the N accepts are exactly 1, 2, …, N — distinct and strictly
increasing — and since every later accept hands out a strictly larger
ID, an ID freed by a disconnect is never reissued within the run. -/
theorem c4_id_assignment :
    (∀ (conn : Nat → Bool) (evs : List REvent),
        acceptedIds conn initServerState evs =
          (List.range (countAccepts evs)).map (fun i : Nat => 1 + (i : Int))) ∧
    (∀ (conn : Nat → Bool) (evs : List REvent),
        (acceptedIds conn initServerState evs).Pairwise (· < ·)) := by
  constructor
  · intro conn evs
    exact acceptedIds_eq conn evs initServerState
  · intro conn evs
    rw [acceptedIds_eq conn evs initServerState]
    refine List.Pairwise.map _ ?_ (List.pairwise_lt_range _)
    intro a b hab
    have : (a : Int) < (b : Int) := by exact_mod_cast hab
    omega

/-! ### Claim C7 — commands against unknown IDs -/

/-- C7: when the ID is not registered, `startClient` and `stopClient`
only append the "Client … not found" log event: the record maps, the
reverse map, the buffers, the counter, and the sent-message trace are
all untouched, no Command is written, no status-changed signal is
emitted, and the operation returns normally (never fatal). -/
theorem c7_unknown_id_noop :
    ∀ (conn : Nat → Bool) (id : Int) (s : ServerState),
      mLookup s.client_sockets id = none →
      startClient conn id s =
        { s with events := s.events ++ [SEvent.logClientNotFound id] } ∧
      stopClient conn id s =
        { s with events := s.events ++ [SEvent.logClientNotFound id] } := by
  intro conn id s h
  constructor
  · unfold startClient
    rw [h]
  · unfold stopClient
    rw [h]

theorem c7_unknown_id_noop_witness :
    startClient (fun _ => true) 5 initServerState =
      { initServerState with
          events := initServerState.events ++ [SEvent.logClientNotFound 5] } ∧
    stopClient (fun _ => true) 5 initServerState =
      { initServerState with
          events := initServerState.events ++ [SEvent.logClientNotFound 5] } :=
  c7_unknown_id_noop (fun _ => true) 5 initServerState rfl

/-! ### Claim C10 — start against a dead socket -/

/-- C10: for a registered ID whose socket is no longer connected,
`startClient` still flips the record's `is_running` to `true` and emits
the status-changed signal, while `sendToClient` silently drops the
Command(start) (no write, no event): the running flag goes true with no
command ever sent to the peer. -/
theorem c10_start_on_dead_socket :
    ∀ (conn : Nat → Bool) (id : Int) (sock : Nat) (info : ClientInfo)
      (s : ServerState),
      mLookup s.client_sockets id = some sock →
      mLookup s.clients sock = some info →
      conn sock = false →
      mLookup (startClient conn id s).clients sock =
        some { info with is_running := true } ∧
      (startClient conn id s).sent = s.sent ∧
      (startClient conn id s).events = s.events ++
        [SEvent.clientStatusChanged id true, SEvent.logStartedClient id] := by
  intro conn id sock info s hcs hcl hconn
  unfold startClient sendToClient
  rw [hcs]
  simp only [hconn, Bool.false_eq_true, if_false]
  refine ⟨?_, by trivial, by trivial⟩
  simp only [mUpdate, hcl, Option.getD_some]
  rw [mLookup_mInsert]
  simp

/-- A collector that accepted one connection on socket 3 whose transport
has since dropped out of ConnectedState. -/
def c10DemoState : ServerState :=
  onNewConnection (fun _ => false) 3 "127.0.0.1" 40000 initServerState

theorem c10_start_on_dead_socket_witness :
    mLookup (startClient (fun _ => false) 1 c10DemoState).clients 3 =
      some { id := 1, ip_address := "127.0.0.1", port := 40000,
             is_connected := true, is_running := true } ∧
    (startClient (fun _ => false) 1 c10DemoState).sent = c10DemoState.sent ∧
    (startClient (fun _ => false) 1 c10DemoState).events =
      c10DemoState.events ++
        [SEvent.clientStatusChanged 1 true, SEvent.logStartedClient 1] :=
  c10_start_on_dead_socket (fun _ => false) 1 3
    { id := 1, ip_address := "127.0.0.1", port := 40000,
      is_connected := true, is_running := false }
    c10DemoState (by decide) (by decide) rfl

/-! ### Claim C8 — dual-map consistency -/

theorem consistent_of_fields (s t : ServerState)
    (hcl : t.clients = s.clients)
    (hcs : t.client_sockets = s.client_sockets)
    (hbuf : t.receive_buffers = s.receive_buffers)
    (hnext : t.next_client_id = s.next_client_id)
    (hc : Consistent s) : Consistent t := by
  unfold Consistent at *
  rw [hcl, hcs, hbuf, hnext]
  exact hc

theorem onNewConnection_clients (conn : Nat → Bool) (sock : Nat) (ip : String)
    (port : Nat) (s : ServerState) :
    (onNewConnection conn sock ip port s).clients =
      mInsert s.clients sock
        { id := s.next_client_id, ip_address := ip, port := port,
          is_connected := true, is_running := false } := by
  simp only [onNewConnection, generateClientId, sendToClient]
  split <;> rfl

theorem onNewConnection_client_sockets (conn : Nat → Bool) (sock : Nat)
    (ip : String) (port : Nat) (s : ServerState) :
    (onNewConnection conn sock ip port s).client_sockets =
      mInsert s.client_sockets s.next_client_id sock := by
  simp only [onNewConnection, generateClientId, sendToClient]
  split <;> rfl

theorem onNewConnection_receive_buffers (conn : Nat → Bool) (sock : Nat)
    (ip : String) (port : Nat) (s : ServerState) :
    (onNewConnection conn sock ip port s).receive_buffers =
      mInsert s.receive_buffers sock [] := by
  simp only [onNewConnection, generateClientId, sendToClient]
  split <;> rfl

theorem consistent_onNewConnection (conn : Nat → Bool) (sock : Nat)
    (ip : String) (port : Nat) (s : ServerState)
    (hc : Consistent s) (hfresh : mLookup s.clients sock = none) :
    Consistent (onNewConnection conn sock ip port s) := by
  obtain ⟨h1, h2, h3, h4, h5⟩ := hc
  refine ⟨?_, ?_, ?_, ?_, ?_⟩ <;>
    simp only [onNewConnection_clients, onNewConnection_client_sockets,
      onNewConnection_receive_buffers, onNewConnection_next_id]
  · -- clients → client_sockets
    intro p hp
    rcases (mem_mInsert p _ _ _).mp hp with hp | ⟨hp, hne⟩
    · subst hp
      rw [mLookup_mInsert, if_pos rfl]
    · have hid := h5 p hp
      rw [mLookup_mInsert, if_neg (by omega)]
      exact h1 p hp
  · -- client_sockets → clients
    intro q hq
    rcases (mem_mInsert q _ _ _).mp hq with hq | ⟨hq, hqne⟩
    · subst hq
      rw [mLookup_mInsert, if_pos rfl]
      rfl
    · have h2q := h2 q hq
      cases hql : mLookup s.clients q.2 with
      | none => rw [hql] at h2q; simp at h2q
      | some info0 =>
        have hmem := mLookup_mem hql
        have hq2 : q.2 ≠ sock := by
          intro heq
          exact mLookup_none_forall hfresh (q.2, info0) hmem (by rw [heq])
        rw [mLookup_mInsert, if_neg hq2]
        exact h2q
  · -- clients ⊆ buffers
    intro p hp
    rcases (mem_mInsert p _ _ _).mp hp with hp | ⟨hp, hne⟩
    · subst hp
      rw [mLookup_mInsert, if_pos rfl]
      rfl
    · rw [mLookup_mInsert, if_neg hne]
      exact h3 p hp
  · -- buffers ⊆ clients
    intro b hb
    rcases (mem_mInsert b _ _ _).mp hb with hb | ⟨hb, hbne⟩
    · subst hb
      rw [mLookup_mInsert, if_pos rfl]
      rfl
    · rw [mLookup_mInsert, if_neg hbne]
      exact h4 b hb
  · -- ids below the counter
    intro p hp
    rcases (mem_mInsert p _ _ _).mp hp with hp | ⟨hp, hne⟩
    · subst hp
      simp
    · have := h5 p hp
      omega

theorem consistent_onClientDisconnected (sock : Nat) (s : ServerState)
    (hc : Consistent s) : Consistent (onClientDisconnected sock s) := by
  obtain ⟨h1, h2, h3, h4, h5⟩ := hc
  cases hl : mLookup s.clients sock with
  | none =>
    unfold onClientDisconnected
    rw [hl]
    exact ⟨h1, h2, h3, h4, h5⟩
  | some info =>
    have hmem : (sock, info) ∈ s.clients := mLookup_mem hl
    have hcsi : mLookup s.client_sockets info.id = some sock := h1 (sock, info) hmem
    unfold onClientDisconnected
    rw [hl]
    refine ⟨?_, ?_, ?_, ?_, ?_⟩
    · intro p hp
      obtain ⟨hp, hpne⟩ := (mem_mErase p _ _).mp hp
      have hne : p.2.id ≠ info.id := by
        intro heq
        have := h1 p hp
        rw [heq, hcsi] at this
        injection this with h
        exact hpne h.symm
      rw [mLookup_mErase, if_neg hne]
      exact h1 p hp
    · intro q hq
      obtain ⟨hq, hqne⟩ := (mem_mErase q _ _).mp hq
      have hne : q.2 ≠ sock := by
        intro heq
        have := h2 q hq
        rw [heq, hl] at this
        exact hqne (by injection this; omega)
      rw [mLookup_mErase, if_neg hne]
      exact h2 q hq
    · intro p hp
      obtain ⟨hp, hpne⟩ := (mem_mErase p _ _).mp hp
      rw [mLookup_mErase, if_neg hpne]
      exact h3 p hp
    · intro b hb
      obtain ⟨hb, hbne⟩ := (mem_mErase b _ _).mp hb
      rw [mLookup_mErase, if_neg hbne]
      exact h4 b hb
    · intro p hp
      exact h5 p ((mem_mErase p _ _).mp hp).1

/-- Core of the start/stop cases: flipping the `is_running` flag of a
registered record at a socket keeps the registry consistent. -/
theorem consistent_set_running (s : ServerState) (sock : Nat) (b : Bool)
    (info0 : ClientInfo) (hcl : mLookup s.clients sock = some info0)
    (hc : Consistent s) :
    Consistent { s with
      clients := mInsert s.clients sock { info0 with is_running := b } } := by
  obtain ⟨h1, h2, h3, h4, h5⟩ := hc
  have hmem : (sock, info0) ∈ s.clients := mLookup_mem hcl
  refine ⟨?_, ?_, ?_, ?_, ?_⟩
  · intro p hp
    rcases (mem_mInsert p _ _ _).mp hp with hp | ⟨hp, hne⟩
    · subst hp
      exact h1 (sock, info0) hmem
    · exact h1 p hp
  · intro q hq
    have h2q := h2 q hq
    by_cases hqs : q.2 = sock
    · rw [mLookup_mInsert, if_pos hqs]
      rw [hqs, hcl] at h2q
      simpa using h2q
    · rw [mLookup_mInsert, if_neg hqs]
      exact h2q
  · intro p hp
    rcases (mem_mInsert p _ _ _).mp hp with hp | ⟨hp, hne⟩
    · subst hp
      exact h3 (sock, info0) hmem
    · exact h3 p hp
  · intro b2 hb
    by_cases hbs : b2.1 = sock
    · rw [mLookup_mInsert, if_pos hbs]
      rfl
    · rw [mLookup_mInsert, if_neg hbs]
      exact h4 b2 hb
  · intro p hp
    rcases (mem_mInsert p _ _ _).mp hp with hp | ⟨hp, hne⟩
    · subst hp
      exact h5 (sock, info0) hmem
    · exact h5 p hp

theorem startClient_clients_none (conn : Nat → Bool) (id : Int)
    (s : ServerState) (h : mLookup s.client_sockets id = none) :
    (startClient conn id s).clients = s.clients := by
  unfold startClient
  rw [h]

theorem startClient_clients_some (conn : Nat → Bool) (id : Int) (sock : Nat)
    (s : ServerState) (h : mLookup s.client_sockets id = some sock) :
    (startClient conn id s).clients =
      mUpdate s.clients sock (fun i => { i with is_running := true })
        defaultClientInfo := by
  unfold startClient sendToClient
  rw [h]
  dsimp only
  split <;> rfl

theorem startClient_client_sockets (conn : Nat → Bool) (id : Int)
    (s : ServerState) :
    (startClient conn id s).client_sockets = s.client_sockets := by
  unfold startClient sendToClient
  cases mLookup s.client_sockets id
  · rfl
  · dsimp only
    split <;> rfl

theorem startClient_receive_buffers (conn : Nat → Bool) (id : Int)
    (s : ServerState) :
    (startClient conn id s).receive_buffers = s.receive_buffers := by
  unfold startClient sendToClient
  cases mLookup s.client_sockets id
  · rfl
  · dsimp only
    split <;> rfl

theorem stopClient_clients_none (conn : Nat → Bool) (id : Int)
    (s : ServerState) (h : mLookup s.client_sockets id = none) :
    (stopClient conn id s).clients = s.clients := by
  unfold stopClient
  rw [h]

theorem stopClient_clients_some (conn : Nat → Bool) (id : Int) (sock : Nat)
    (s : ServerState) (h : mLookup s.client_sockets id = some sock) :
    (stopClient conn id s).clients =
      mUpdate s.clients sock (fun i => { i with is_running := false })
        defaultClientInfo := by
  unfold stopClient sendToClient
  rw [h]
  dsimp only
  split <;> rfl

theorem stopClient_client_sockets (conn : Nat → Bool) (id : Int)
    (s : ServerState) :
    (stopClient conn id s).client_sockets = s.client_sockets := by
  unfold stopClient sendToClient
  cases mLookup s.client_sockets id
  · rfl
  · dsimp only
    split <;> rfl

theorem stopClient_receive_buffers (conn : Nat → Bool) (id : Int)
    (s : ServerState) :
    (stopClient conn id s).receive_buffers = s.receive_buffers := by
  unfold stopClient sendToClient
  cases mLookup s.client_sockets id
  · rfl
  · dsimp only
    split <;> rfl

theorem consistent_startClient (conn : Nat → Bool) (id : Int)
    (s : ServerState) (hc : Consistent s) :
    Consistent (startClient conn id s) := by
  cases hl : mLookup s.client_sockets id with
  | none =>
    exact consistent_of_fields s _ (startClient_clients_none conn id s hl)
      (startClient_client_sockets conn id s)
      (startClient_receive_buffers conn id s)
      (startClient_next_id conn id s) hc
  | some sock =>
    have h2q := hc.2.1 (id, sock) (mLookup_mem hl)
    cases hcl0 : mLookup s.clients sock with
    | none => rw [hcl0] at h2q; simp at h2q
    | some info0 =>
      refine consistent_of_fields
        { s with clients := mInsert s.clients sock ({ info0 with is_running := true }) }
        (startClient conn id s) ?_ ?_ ?_ ?_
        (consistent_set_running s sock true info0 hcl0 hc)
      · rw [startClient_clients_some conn id sock s hl]
        simp [mUpdate, hcl0]
      · exact startClient_client_sockets conn id s
      · exact startClient_receive_buffers conn id s
      · exact startClient_next_id conn id s

theorem consistent_stopClient (conn : Nat → Bool) (id : Int)
    (s : ServerState) (hc : Consistent s) :
    Consistent (stopClient conn id s) := by
  cases hl : mLookup s.client_sockets id with
  | none =>
    exact consistent_of_fields s _ (stopClient_clients_none conn id s hl)
      (stopClient_client_sockets conn id s)
      (stopClient_receive_buffers conn id s)
      (stopClient_next_id conn id s) hc
  | some sock =>
    have h2q := hc.2.1 (id, sock) (mLookup_mem hl)
    cases hcl0 : mLookup s.clients sock with
    | none => rw [hcl0] at h2q; simp at h2q
    | some info0 =>
      refine consistent_of_fields
        { s with clients := mInsert s.clients sock ({ info0 with is_running := false }) }
        (stopClient conn id s) ?_ ?_ ?_ ?_
        (consistent_set_running s sock false info0 hcl0 hc)
      · rw [stopClient_clients_some conn id sock s hl]
        simp [mUpdate, hcl0]
      · exact stopClient_client_sockets conn id s
      · exact stopClient_receive_buffers conn id s
      · exact stopClient_next_id conn id s

theorem stopServer_clients (l : Bool) (s : ServerState) :
    (stopServer l s).clients = [] := by
  unfold stopServer
  split <;> rfl

theorem stopServer_client_sockets (l : Bool) (s : ServerState) :
    (stopServer l s).client_sockets = [] := by
  unfold stopServer
  split <;> rfl

theorem stopServer_receive_buffers (l : Bool) (s : ServerState) :
    (stopServer l s).receive_buffers = [] := by
  unfold stopServer
  split <;> rfl

theorem consistent_stopServer (l : Bool) (s : ServerState) :
    Consistent (stopServer l s) := by
  refine ⟨?_, ?_, ?_, ?_, ?_⟩
  · intro p hp
    rw [stopServer_clients] at hp
    simp at hp
  · intro q hq
    rw [stopServer_client_sockets] at hq
    simp at hq
  · intro p hp
    rw [stopServer_clients] at hp
    simp at hp
  · intro b hb
    rw [stopServer_receive_buffers] at hb
    simp at hb
  · intro p hp
    rw [stopServer_clients] at hp
    simp at hp

/-- A collector that accepted one connection on socket 3. -/
def c8DemoState : ServerState :=
  onNewConnection (fun _ => true) 3 "10.0.0.2" 5555 initServerState

/-- C8: the registry invariant — every clients-map entry has a matching
ID→socket entry and vice versa (with the record carrying that same ID),
the receive-buffer map covers exactly the registered sockets, and issued
IDs stay below the counter — holds initially and is preserved by every
registry operation (accept of a fresh socket, disconnect, startClient,
stopClient, stopServer); on disconnect both map entries and the buffer
are removed together. -/
theorem c8_registry_consistency :
    Consistent initServerState ∧
    (∀ (conn : Nat → Bool) (sock : Nat) (ip : String) (port : Nat)
        (s : ServerState),
        Consistent s → mLookup s.clients sock = none →
        Consistent (onNewConnection conn sock ip port s)) ∧
    (∀ (sock : Nat) (s : ServerState), Consistent s →
        Consistent (onClientDisconnected sock s)) ∧
    (∀ (conn : Nat → Bool) (id : Int) (s : ServerState), Consistent s →
        Consistent (startClient conn id s)) ∧
    (∀ (conn : Nat → Bool) (id : Int) (s : ServerState), Consistent s →
        Consistent (stopClient conn id s)) ∧
    (∀ (l : Bool) (s : ServerState), Consistent s →
        Consistent (stopServer l s)) ∧
    (∀ (sock : Nat) (info : ClientInfo) (s : ServerState),
        mLookup s.clients sock = some info →
        mLookup (onClientDisconnected sock s).clients sock = none ∧
        mLookup (onClientDisconnected sock s).client_sockets info.id = none ∧
        mLookup (onClientDisconnected sock s).receive_buffers sock = none) := by
  refine ⟨?_, ?_, ?_, ?_, ?_, ?_, ?_⟩
  · exact ⟨by simp [initServerState], by simp [initServerState],
      by simp [initServerState], by simp [initServerState],
      by simp [initServerState]⟩
  · intro conn sock ip port s hc hfresh
    exact consistent_onNewConnection conn sock ip port s hc hfresh
  · intro sock s hc
    exact consistent_onClientDisconnected sock s hc
  · intro conn id s hc
    exact consistent_startClient conn id s hc
  · intro conn id s hc
    exact consistent_stopClient conn id s hc
  · intro l s _
    exact consistent_stopServer l s
  · intro sock info s h
    unfold onClientDisconnected
    rw [h]
    refine ⟨?_, ?_, ?_⟩ <;>
      · dsimp only
        rw [mLookup_mErase, if_pos rfl]

theorem c8_registry_consistency_witness :
    Consistent (onNewConnection (fun _ => true) 3 "10.0.0.2" 5555
      initServerState) ∧
    Consistent (onClientDisconnected 3 c8DemoState) ∧
    Consistent (startClient (fun _ => true) 1 c8DemoState) ∧
    Consistent (stopClient (fun _ => true) 1 c8DemoState) ∧
    Consistent (stopServer true c8DemoState) ∧
    mLookup (onClientDisconnected 3 c8DemoState).clients 3 = none :=
  ⟨c8_registry_consistency.2.1 (fun _ => true) 3 "10.0.0.2" 5555
      initServerState (by decide) rfl,
   c8_registry_consistency.2.2.1 3 c8DemoState (by decide),
   c8_registry_consistency.2.2.2.1 (fun _ => true) 1 c8DemoState (by decide),
   c8_registry_consistency.2.2.2.2.1 (fun _ => true) 1 c8DemoState (by decide),
   c8_registry_consistency.2.2.2.2.2.1 true c8DemoState (by decide),
   (c8_registry_consistency.2.2.2.2.2.2 3
      { id := 1, ip_address := "10.0.0.2", port := 5555,
        is_connected := true, is_running := false }
      c8DemoState (by decide)).1⟩

end ClientServerApp
